import Mathlib

/-!
Verification of the TomoPrep orchestration core against its specification.

The development shallowly embeds the Python sources (`functions.py`,
`TomoPrep_v1.4.py`).  Strings are modelled as `List Char`; Python's
`str.replace` is modelled by `listReplace` (replace every non-overlapping
occurrence, scanning left to right) and `listReplace1` (replace only the
first occurrence, Python's `str.replace(old, new, 1)`).  Tilt angles and
other float-valued fields captured by decimal regexes are modelled as
exact rationals.  Fallible Python code (regex `.group` on a failed search,
pandas `.loc` on a missing label) is modelled with `Except`.
-/

namespace TomoPrep

/-- Scanner for Python's `str.replace`: in state `k + 1` the character
belongs to an already-matched occurrence and is consumed; in state `0` the
scanner matches `pat` at the current position (emitting `rep` and entering
skip state for the matched occurrence's remaining characters) or copies
the character. -/
def listReplaceGo (pat rep : List Char) : List Char → Nat → List Char
  | [], _ => []
  | _ :: rest, Nat.succ k => listReplaceGo pat rep rest k
  | c :: rest, 0 =>
    if pat ≠ [] ∧ pat.isPrefixOf (c :: rest) then
      rep ++ listReplaceGo pat rep rest (pat.length - 1)
    else
      c :: listReplaceGo pat rep rest 0

/-- Python `str.replace(pat, rep)` on character lists: replace every
non-overlapping occurrence of `pat` by `rep`, scanning left to right.
(For the empty pattern the scan just keeps every character; the sources
only ever use non-empty patterns.) -/
def listReplace (pat rep s : List Char) : List Char :=
  listReplaceGo pat rep s 0

theorem listReplaceGo_skip (pat rep : List Char) :
    ∀ s k, listReplaceGo pat rep s k = listReplaceGo pat rep (s.drop k) 0 := by
  intro s
  induction s with
  | nil => intro k; simp [listReplaceGo]
  | cons c rest ih =>
    intro k
    cases k with
    | zero => rfl
    | succ k => simpa [listReplaceGo] using ih k

/-- Python `str.replace(pat, rep, 1)`: replace only the first occurrence. -/
def listReplace1 (pat rep : List Char) : List Char → List Char
  | [] => []
  | c :: rest =>
    if pat ≠ [] ∧ pat.isPrefixOf (c :: rest) then
      rep ++ (rest.drop (pat.length - 1))
    else
      c :: listReplace1 pat rep rest

/-- `pat` occurs in `s` starting at position `i`. -/
def occursAt (pat s : List Char) (i : Nat) : Prop :=
  pat.isPrefixOf (s.drop i) = true

instance (pat s : List Char) (i : Nat) : Decidable (occursAt pat s i) := by
  unfold occursAt; infer_instance

/-- `pat` occurs somewhere in `s` (Python's `pat in s`). -/
def occursIn (pat s : List Char) : Prop := ∃ i, occursAt pat s i

/-- Executable occurrence check: only positions `≤ s.length` can carry an
occurrence, so a bounded scan decides `occursIn`. -/
def occursInB (pat s : List Char) : Bool :=
  (List.range (s.length + 1)).any (fun i => pat.isPrefixOf (s.drop i))

theorem occursAt_of_ge (pat s : List Char) (i : Nat) (hpat : pat ≠ [])
    (hi : s.length ≤ i) : ¬ occursAt pat s i := by
  intro h
  have hdrop : s.drop i = [] := List.drop_eq_nil_of_le hi
  rw [occursAt, hdrop] at h
  cases pat with
  | nil => exact hpat rfl
  | cons c cs => simp [List.isPrefixOf] at h

theorem occursIn_iff_occursInB (pat s : List Char) (hpat : pat ≠ []) :
    occursIn pat s ↔ occursInB pat s = true := by
  constructor
  · rintro ⟨i, hi⟩
    rcases Nat.lt_or_ge i (s.length + 1) with hlt | hge
    · exact List.any_eq_true.mpr ⟨i, List.mem_range.mpr hlt, hi⟩
    · exact absurd hi (occursAt_of_ge pat s i hpat (Nat.le_of_succ_le hge))
  · intro h
    rcases List.any_eq_true.mp h with ⟨i, _, hi⟩
    exact ⟨i, hi⟩

theorem listReplace_nil (pat rep : List Char) : listReplace pat rep [] = [] := by
  simp [listReplace, listReplaceGo]

theorem listReplace_pos (pat rep : List Char) (c : Char) (rest : List Char)
    (h1 : pat ≠ []) (h2 : pat.isPrefixOf (c :: rest)) :
    listReplace pat rep (c :: rest) =
      rep ++ listReplace pat rep (rest.drop (pat.length - 1)) := by
  unfold listReplace
  rw [listReplaceGo, if_pos ⟨h1, h2⟩, listReplaceGo_skip]

theorem listReplace_neg (pat rep : List Char) (c : Char) (rest : List Char)
    (h : ¬ (pat ≠ [] ∧ pat.isPrefixOf (c :: rest))) :
    listReplace pat rep (c :: rest) = c :: listReplace pat rep rest := by
  unfold listReplace
  rw [listReplaceGo, if_neg h]

/-- If `pat` occurs nowhere in `s`, the replacement is the identity
(Python's `s.replace(pat, rep) == s` when `pat not in s`). -/
theorem listReplace_of_not_occursIn (pat rep s : List Char)
    (h : ¬ occursIn pat s) : listReplace pat rep s = s := by
  induction s with
  | nil => exact listReplace_nil pat rep
  | cons c rest ih =>
    have h0 : ¬ (pat.isPrefixOf (c :: rest) = true) := by
      intro hp; exact h ⟨0, by simpa [occursAt] using hp⟩
    rw [listReplace_neg pat rep c rest (fun hand => h0 hand.2)]
    have hrest : ¬ occursIn pat rest := by
      rintro ⟨i, hi⟩
      exact h ⟨i + 1, by simpa [occursAt] using hi⟩
    rw [ih hrest]

/-- If the only occurrence of `pat` in `X ++ pat` is the final one, the
replacement rewrites exactly that trailing occurrence. -/
theorem listReplace_append_self (pat rep X : List Char) (hpat : pat ≠ [])
    (h : ∀ i, occursAt pat (X ++ pat) i → i = X.length) :
    listReplace pat rep (X ++ pat) = X ++ rep := by
  induction X with
  | nil =>
    cases pat with
    | nil => exact absurd rfl hpat
    | cons c cs =>
      have hpre : (c :: cs).isPrefixOf (c :: cs) = true :=
        List.isPrefixOf_iff_prefix.mpr (List.prefix_refl _)
      have := listReplace_pos (c :: cs) rep c cs hpat hpre
      simp only [List.nil_append] at *
      rw [this]
      have hdrop : cs.drop ((c :: cs).length - 1) = [] := by
        simp [List.drop_eq_nil_of_le]
      rw [hdrop, listReplace_nil]
      simp
  | cons c X' ih =>
    have hne : ¬ (pat.isPrefixOf (c :: (X' ++ pat)) = true) := by
      intro hp
      have h0 : occursAt pat ((c :: X') ++ pat) 0 := by
        simpa [occursAt] using hp
      have := h 0 h0
      simp at this
    have hstep := listReplace_neg pat rep c (X' ++ pat)
      (fun hand => hne hand.2)
    simp only [List.cons_append] at *
    rw [hstep]
    have h' : ∀ i, occursAt pat (X' ++ pat) i → i = X'.length := by
      intro i hi
      have : occursAt pat (c :: (X' ++ pat)) (i + 1) := by
        simpa [occursAt] using hi
      have hlen := h (i + 1) (by simpa [occursAt] using this)
      simp only [List.length_cons] at hlen
      omega
    rw [ih h']

/-! ## Data model

`MdocSegment` models one `[ZValue = k]` block of an mdoc file at the level
of the three regex captures `readmdoc` performs on it: each field is `some`
captured value when the corresponding `re.search` matches and `none` when it
does not (`.group(1)` on `none` raises, modelled as `Except.error`).
The captures `TiltAngle = ([-+]?\d+\.\d+)` and `Voltage = (\d+\.\d+)` are
decimal literals, modelled by their exact rational values; the capture
`NumSubFrames = (\d+)` is a digit string, modelled by its natural-number
value; the capture `ImageFile = (.+)` / `SubFramePath = (.+)` is an
arbitrary stripped string, modelled as `List Char`. -/

structure MdocSegment where
  tiltAngle : Option ℚ
  subFramePath : Option (List Char)
  numSubFrames : Option Nat
deriving DecidableEq, Repr

/-- One mdoc file: the three header captures plus the ordered list of
`[ZValue = k]` segments produced by the `re.split`. -/
structure MdocFile where
  voltage : Option ℚ
  tiltAxisAngle : Option ℚ
  imageFile : Option (List Char)
  segments : List MdocSegment
deriving DecidableEq, Repr

/-- The configuration keys the orchestration core reads
(`config_TomoPrep.json`). `modifySubframePath` models
`config['modify_subframe_path'] == "YES"`; the stage flags model the
`== "YES"` tests in `process_mdoc_file`. -/
structure Config where
  modifySubframePath : Bool
  fileType : List Char
  processingDirectory : List Char
  mdocDirectory : List Char
  fileSorting : Bool
  motionCorrection : Bool
  ctfEstimation : Bool
  aretomoAlignment : Bool
deriving DecidableEq, Repr

/-- One row of the DataFrame `readmdoc` builds. Python stores
`float(number_of_frames)`, hence `numSubFrames : ℚ` (cast from the `\d+`
capture). -/
structure TiltRecord where
  tiltAngle : ℚ
  subFramePath : List Char
  numSubFrames : ℚ
deriving DecidableEq, Repr

/-- The DataFrame returned by `readmdoc`: the per-tilt rows plus the header
columns broadcast onto every row. -/
structure MdocDf where
  records : List TiltRecord
  voltage : Option ℚ
  tiltAxisAngle : Option ℚ
  imageFile : Option (List Char)
deriving DecidableEq, Repr

/-- Errors the embedded Python code can raise: a failed per-segment regex
search (`.group` on `None`, the spec's `MissingFieldError`), a pandas
`.loc` lookup on a missing row label (`KeyError`), and calling a string
method on `None` (`AttributeError`). -/
inductive Err where
  | missingField (segIdx : Nat) (field : List Char)
  | indexError (idx : Nat)
  | noneError
deriving DecidableEq, Repr

instance {ε α : Type} [DecidableEq ε] [DecidableEq α] :
    DecidableEq (Except ε α) := fun x y =>
  match x, y with
  | Except.ok a, Except.ok b =>
    match decEq a b with
    | isTrue h => isTrue (congrArg Except.ok h)
    | isFalse h => isFalse fun hc => h (Except.ok.inj hc)
  | Except.error e, Except.error e' =>
    match decEq e e' with
    | isTrue h => isTrue (congrArg Except.error h)
    | isFalse h => isFalse fun hc => h (Except.error.inj hc)
  | Except.ok _, Except.error _ => isFalse fun hc => Except.noConfusion hc
  | Except.error _, Except.ok _ => isFalse fun hc => Except.noConfusion hc

def tiltAngleField : List Char := "TiltAngle".data
def subFramePathField : List Char := "SubFramePath".data
def numSubFramesField : List Char := "NumSubFrames".data

/-- Characters excluded by the basename regex `[^\\/:*?"<>|\r\n]+$`. -/
def forbiddenChar (c : Char) : Bool :=
  c ∈ ['\\', '/', ':', '*', '?', '\"', '<', '>', '|', '\r', '\n']

/-- `re.search(r"[^\\/:*?\"<>|\r\n]+$", s).group()`: the longest non-empty
run of allowed characters ending at the end of the string; `none` when the
string is empty or ends in a forbidden character (the search fails and
`.group()` raises). -/
def lastComponent (s : List Char) : Option (List Char) :=
  let t := (s.reverse.takeWhile (fun c => ! forbiddenChar c)).reverse
  if t = [] then none else some t

def fractionsUpper : List Char := "_Fractions.".data
def fractionsLower : List Char := "_fractions.".data
def mrcExt : List Char := ".mrc".data

/-! ## Metadata Parser (`functions.readmdoc`) -/

/-- Process one `[ZValue]` segment: the body of `readmdoc`'s `for` loop.
Each failed regex search aborts the whole parse, in source order:
`TiltAngle`, then `SubFramePath` (match, then basename extraction), then
`NumSubFrames`. The `modify_subframe_path == "YES"` rewrite replaces
`_Fractions.` with `_fractions.` in the basename. -/
def readSegment (cfg : Config) (idx : Nat) (seg : MdocSegment) :
    Except Err TiltRecord :=
  match seg.tiltAngle with
  | none => Except.error (Err.missingField idx tiltAngleField)
  | some ta =>
    match seg.subFramePath with
    | none => Except.error (Err.missingField idx subFramePathField)
    | some sp0 =>
      match lastComponent sp0 with
      | none => Except.error (Err.missingField idx subFramePathField)
      | some sp1 =>
        match seg.numSubFrames with
        | none => Except.error (Err.missingField idx numSubFramesField)
        | some nf =>
          Except.ok
            { tiltAngle := ta
              subFramePath := if cfg.modifySubframePath then
                  listReplace fractionsUpper fractionsLower sp1
                else sp1
              numSubFrames := (nf : ℚ) }

/-- The segment loop of `readmdoc`: fail-fast at the first malformed
segment, otherwise one `TiltRecord` per segment, in order. -/
def readSegments (cfg : Config) : Nat → List MdocSegment → Except Err (List TiltRecord)
  | _, [] => Except.ok []
  | i, seg :: rest =>
    match readSegment cfg i seg with
    | Except.error e => Except.error e
    | Except.ok r =>
      match readSegments cfg (i + 1) rest with
      | Except.error e => Except.error e
      | Except.ok rs => Except.ok (r :: rs)

/-- `functions.readmdoc`: header captures (a failed header search yields
`None`, not an error), the unconditional
`image_file.replace(".mrc", "")`, and the per-segment loop. -/
def readmdoc (cfg : Config) (f : MdocFile) : Except Err MdocDf :=
  match readSegments cfg 0 f.segments with
  | Except.error e => Except.error e
  | Except.ok recs =>
    Except.ok
      { records := recs
        voltage := f.voltage
        tiltAxisAngle := f.tiltAxisAngle
        imageFile := f.imageFile.map (fun s => listReplace mrcExt [] s) }

/-! ## Work-Unit Identity Resolver (`functions.get_position_name`) -/

/-- POSIX `os.path.join(a, b)` for the two-argument case. -/
def pathJoin (a b : List Char) : List Char :=
  if b.head? = some '/' then b
  else if a = [] ∨ a.getLast? = some '/' then a ++ b
  else a ++ '/' :: b

/-- The resolution core shared by `get_position_name`, `motioncorr`,
`aretomo`, `ctffind` and the other stages:
`position_name.replace(".{}".format(file_type), "")` followed by
`os.path.join(processing_directory, position_prefix)`. Note that Python's
`str.replace` removes every occurrence of `".<file_type>"`, not only a
trailing one. -/
def resolve_position (positionName fileType processingDirectory : List Char) :
    List Char × List Char :=
  let stem := listReplace ('.' :: fileType) [] positionName
  (stem, pathJoin processingDirectory stem)

/-- `mdoc_df.loc[1, "ImageFile"]` then `.replace(...)`: pandas raises
`KeyError` unless the frame has a row with label `1` (i.e. at least two
rows); a `None` cell then raises `AttributeError` at `.replace`. -/
def locImageFile (df : MdocDf) : Except Err (List Char) :=
  if 1 < df.records.length then
    match df.imageFile with
    | some s => Except.ok s
    | none => Except.error Err.noneError
  else Except.error (Err.indexError 1)

/-- `functions.get_position_name`: parse the mdoc, read the image-file
identifier from the row labelled `1`, strip the configured suffix, join
with the processing directory. -/
def get_position_name (cfg : Config) (f : MdocFile) :
    Except Err (List Char × List Char) :=
  match readmdoc cfg f with
  | Except.error e => Except.error e
  | Except.ok df =>
    match locImageFile df with
    | Except.error e => Except.error e
    | Except.ok posName =>
      Except.ok (resolve_position posName cfg.fileType cfg.processingDirectory)

/-! ## Per-unit stages (`TomoPrep_v1.4.py`)

Filesystem and scheduler side effects are recorded as an explicit effect
list; the admission and readiness loops are modelled separately
(`queue_submit_run`, `gateReturnsAt`), so the deterministic part of each
job stage ends in a single `submitJob` effect. -/

inductive Effect where
  | makedirs (path : List Char)
  | symlink (src dst : List Char)
  | writeFile (path : List Char)
  | submitJob (script : List Char)
deriving DecidableEq, Repr

/-- `os.path.basename`: the part after the last `/`. -/
def osBasename (s : List Char) : List Char :=
  (s.reverse.takeWhile (fun c => c ≠ '/')).reverse

/-- `file_sorter`: resolve the work-unit identity (called twice, as in the
source), re-parse the mdoc, create the position directory, and symlink
each row's sub-frame file from the mdoc directory into it. -/
def file_sorter (cfg : Config) (f : MdocFile) :
    Except Err (List Effect × List Char × List Char) :=
  match get_position_name cfg f with
  | Except.error e => Except.error e
  | Except.ok _ =>
    match get_position_name cfg f with
    | Except.error e => Except.error e
    | Except.ok pd =>
      match readmdoc cfg f with
      | Except.error e => Except.error e
      | Except.ok df =>
        let links := df.records.map (fun r =>
          let subframeFile := osBasename r.subFramePath
          Effect.symlink (pathJoin cfg.mdocDirectory subframeFile)
            (pathJoin pd.2 subframeFile))
        Except.ok (Effect.makedirs pd.2 :: links, pd.1, pd.2)

/-- `mdoc_df.sort_values(by='TiltAngle')`: the rows reordered so the
tilt-angle column is ascending. -/
def sortByTiltAngle (rs : List TiltRecord) : List TiltRecord :=
  rs.mergeSort (fun a b => decide (a.tiltAngle ≤ b.tiltAngle))

/-- The tilt-angle column of the sorted frame — the payload written to the
`.rawtlt` file. -/
def rawtlt_content (df : MdocDf) : List ℚ :=
  (sortByTiltAngle df.records).map (fun r => r.tiltAngle)

/-- `rawtlt_maker`: returns the output path
`{position_directory}/{position_prefix}.rawtlt` and the sorted tilt angles
written into it. -/
def rawtlt_maker (cfg : Config) (f : MdocFile) :
    Except Err (List Char × List ℚ) :=
  match readmdoc cfg f with
  | Except.error e => Except.error e
  | Except.ok df =>
    match get_position_name cfg f with
    | Except.error e => Except.error e
    | Except.ok pd =>
      Except.ok (pd.2 ++ '/' :: (pd.1 ++ ".rawtlt".data), rawtlt_content df)

/-- One input line of the newstack manifest:
`subframe_path.replace(".", "_", 1)` then
`.replace(".<file_type>", ".mrc")`, prefixed with `MotionCorr/job002/`. -/
def newstack_line (cfg : Config) (r : TiltRecord) : List Char :=
  let m1 := listReplace1 ['.'] ['_'] r.subFramePath
  let m2 := listReplace ('.' :: cfg.fileType) mrcExt m1
  "MotionCorr/job002/".data ++ m2

/-- `newstacker`: the manifest path and its lines — the row count, then a
(path, `"0"`) pair per sorted row. -/
def newstacker (cfg : Config) (f : MdocFile) :
    Except Err (List Char × List (List Char)) :=
  match readmdoc cfg f with
  | Except.error e => Except.error e
  | Except.ok df =>
    match get_position_name cfg f with
    | Except.error e => Except.error e
    | Except.ok pd =>
      let sorted := sortByTiltAngle df.records
      let lines := (Nat.repr sorted.length).data ::
        sorted.flatMap (fun r => [newstack_line cfg r, ['0']])
      Except.ok (pd.2 ++ '/' :: (pd.1 ++ "_newstack.txt".data), lines)

/-- `tomo_order_list_maker`: CSV rows `(index starting at 1, tilt angle)`
over the unsorted frame. -/
def tomo_order_list_maker (cfg : Config) (f : MdocFile) :
    Except Err (List Char × List (Nat × ℚ)) :=
  match readmdoc cfg f with
  | Except.error e => Except.error e
  | Except.ok df =>
    match locImageFile df with
    | Except.error e => Except.error e
    | Except.ok posName =>
      let pd := resolve_position posName cfg.fileType cfg.processingDirectory
      let rows := (List.range' 1 df.records.length).zip
        (df.records.map (fun r => r.tiltAngle))
      Except.ok (pathJoin pd.2 (pd.1 ++ "_order_list.csv".data), rows)

/-- Shared shape of `motioncorr`, `aretomo` and `ctffind` (deterministic
part): re-derive the identity from row 1 of the frame, write the filled
SLURM script `<stage>_slurm_<position>.sh` into the position directory,
submit it. -/
def job_stage (cfg : Config) (f : MdocFile) (scriptStem : List Char) :
    Except Err (List Effect) :=
  match readmdoc cfg f with
  | Except.error e => Except.error e
  | Except.ok df =>
    match locImageFile df with
    | Except.error e => Except.error e
    | Except.ok posName =>
      let pd := resolve_position posName cfg.fileType cfg.processingDirectory
      let script := pathJoin pd.2 (scriptStem ++ pd.1 ++ ".sh".data)
      Except.ok [Effect.writeFile script, Effect.submitJob script]

/-- `aretomo` (deterministic part), as `motioncorr` with its own script. -/
def aretomo (cfg : Config) (f : MdocFile) : Except Err (List Effect) :=
  job_stage cfg f "aretomo_slurm_".data

/-- `ctffind` (deterministic part), as `motioncorr` with its own script. -/
def ctffind (cfg : Config) (f : MdocFile) : Except Err (List Effect) :=
  job_stage cfg f "ctffind_slurm_".data

/-- `motioncorr` (deterministic part). -/
def motioncorr (cfg : Config) (f : MdocFile) : Except Err (List Effect) :=
  job_stage cfg f "motioncorr_slurm_".data

/-- The `file_sorting == "YES"` block of `process_mdoc_file`: the four
linking/manifest stages in source order. -/
def file_sorting_block (cfg : Config) (f : MdocFile) : Except Err (List Effect) :=
  match file_sorter cfg f with
  | Except.error e => Except.error e
  | Except.ok fs =>
    match rawtlt_maker cfg f with
    | Except.error e => Except.error e
    | Except.ok rt =>
      match newstacker cfg f with
      | Except.error e => Except.error e
      | Except.ok ns =>
        match tomo_order_list_maker cfg f with
        | Except.error e => Except.error e
        | Except.ok ol =>
          Except.ok (fs.1 ++ [Effect.writeFile rt.1, Effect.writeFile ns.1,
            Effect.writeFile ol.1])

/-- The body of `process_mdoc_file`'s `try` block: the stage sequence for
one work unit, honoring the per-stage enable flags. Any stage error aborts
the remainder of this unit's sequence. -/
def stage_pipeline (cfg : Config) (f : MdocFile) : Except Err (List Effect) :=
  match (if cfg.fileSorting then file_sorting_block cfg f else Except.ok []) with
  | Except.error e => Except.error e
  | Except.ok e1 =>
    match (if cfg.motionCorrection then motioncorr cfg f else Except.ok []) with
    | Except.error e => Except.error e
    | Except.ok e2 =>
      match (if cfg.aretomoAlignment then aretomo cfg f else Except.ok []) with
      | Except.error e => Except.error e
      | Except.ok e3 =>
        match (if cfg.ctfEstimation then ctffind cfg f else Except.ok []) with
        | Except.error e => Except.error e
        | Except.ok e4 => Except.ok (e1 ++ e2 ++ e3 ++ e4)

/-- Outcome of one work unit's execution: either the effect trace of a
completed sequence, or the error reported by the `except Exception`
handler (`"An error occurred during processing: e"`). -/
inductive UnitOutcome where
  | completed (effs : List Effect)
  | reported (e : Err)
deriving DecidableEq, Repr

/-- `process_mdoc_file`: the per-unit entry point. Every error raised in
the stage sequence is caught here and reported; the function itself is
total. -/
def process_mdoc_file (cfg : Config) (f : MdocFile) : UnitOutcome :=
  match stage_pipeline cfg f with
  | Except.ok effs => UnitOutcome.completed effs
  | Except.error e => UnitOutcome.reported e

/-- The process-level fan-out: one independent `process_mdoc_file`
execution per discovered mdoc file (separate processes share no state, so
the pure map is the faithful model of the joined results). -/
def fan_out (cfg : Config) (files : List MdocFile) : List UnitOutcome :=
  files.map (process_mdoc_file cfg)

/-! ## Admission-Controlled Submitter (`functions.queue_submit`) -/

inductive QueueEffect where
  | sleep
  | submit (script : List Char)
deriving DecidableEq, Repr

/-- The admission loop of `queue_submit` (also inlined in `motioncorr`,
`aretomo`, `ctffind`, `relion_tomo_reconstruct`): at step `n` observe the
`squeue` job count `obs n`; if it is at or above `max_jobs`, sleep and
re-query, otherwise `sbatch` the script and return. `fuel` bounds the
unrolling: `none` means the loop was still waiting after `fuel` polls. -/
def queue_submit_run (obs : Nat → Nat) (maxJobs : Nat) (script : List Char) :
    Nat → Nat → Option (List QueueEffect)
  | 0, _ => none
  | fuel + 1, n =>
    if maxJobs ≤ obs n then
      (queue_submit_run obs maxJobs script fuel (n + 1)).map
        (fun es => QueueEffect.sleep :: es)
    else
      some [QueueEffect.submit script]

/-! ## Readiness Gate

A gate is a busy-wait loop `while cond: ...`; over a trace of filesystem
snapshots indexed by poll number, `gate_wait_run cond fuel n` unrolls the
loop from poll `n` for at most `fuel` polls: `some k` means the loop
returned at poll `k` (the first poll at which the continue-condition was
`false`); `none` means it was still waiting after `fuel` polls. -/

def gate_wait_run (cond : Nat → Bool) : Nat → Nat → Option Nat
  | 0, _ => none
  | fuel + 1, n => if cond n then gate_wait_run cond fuel (n + 1) else some n

/-- Continue-condition of the single-path gates
(`while not os.path.exists(target)`), e.g. `ctffind` waiting on
`RELION_JOB_EXIT_SUCCESS`. -/
def simple_gate_cond (targetExists : Nat → Bool) (t : Nat) : Bool :=
  ! targetExists t

/-- Continue-condition of the IMOD-files gate in `relion_setup`, exactly as
written in the source:
`while not os.path.exists(source_path) and os.path.exists(tiltcom_file)
and os.path.exists(tlt_file) and os.path.exists(newstcom_file) and
os.path.exists(xtilt_file) and os.path.exists(xf_file) and
os.path.exists(st_file)` — `not` binds only the first operand. -/
def imod_gate_cond (srcDir tiltcom tlt newst xtilt xf st : Nat → Bool)
    (t : Nat) : Bool :=
  (! srcDir t) && tiltcom t && tlt t && newst t && xtilt t && xf t && st t

/-- A filesystem trace on which the polled artifact never exists. -/
def absentTrace : Nat → Bool := fun _ => false

/-! ## Parser lemmas -/

/-- A tilt segment is valid when all three regex searches succeed, with a
sub-frame path that still has a final path component. -/
def MdocSegment.validB (seg : MdocSegment) : Bool :=
  seg.tiltAngle.isSome &&
  (match seg.subFramePath with
   | some s => (lastComponent s).isSome
   | none => false) &&
  seg.numSubFrames.isSome

theorem readSegment_ok_of_valid (cfg : Config) (i : Nat) (seg : MdocSegment)
    (h : seg.validB = true) :
    ∃ q : ℚ, ∃ sp : List Char, ∃ n : ℕ,
      readSegment cfg i seg = Except.ok ⟨q, sp, (n : ℚ)⟩ := by
  obtain ⟨ta, sp, nf⟩ := seg
  unfold MdocSegment.validB at h
  cases ta with
  | none => simp at h
  | some q =>
    cases sp with
    | none => simp at h
    | some s =>
      cases hlc : lastComponent s with
      | none => simp [hlc] at h
      | some sp1 =>
        cases nf with
        | none => simp at h
        | some n =>
          refine ⟨q, if cfg.modifySubframePath then
            listReplace fractionsUpper fractionsLower sp1 else sp1, n, ?_⟩
          simp [readSegment, hlc]

theorem readSegments_ok_of_valid (cfg : Config) (segs : List MdocSegment)
    (i : Nat) (h : ∀ seg ∈ segs, seg.validB = true) :
    ∃ rs, readSegments cfg i segs = Except.ok rs ∧
      rs.length = segs.length ∧
      ∀ r ∈ rs, ∃ n : ℕ, r.numSubFrames = (n : ℚ) := by
  induction segs generalizing i with
  | nil => exact ⟨[], rfl, rfl, by simp⟩
  | cons seg rest ih =>
    obtain ⟨q, sp, n, hok⟩ := readSegment_ok_of_valid cfg i seg
      (h seg (List.mem_cons_self seg rest))
    obtain ⟨rs, hrs, hlen, hmem⟩ := ih (i + 1)
      (fun s hs => h s (List.mem_cons_of_mem seg hs))
    refine ⟨⟨q, sp, (n : ℚ)⟩ :: rs, ?_, by simp [hlen], ?_⟩
    · simp [readSegments, hok, hrs]
    · intro r hr
      rcases List.mem_cons.mp hr with hr | hr
      · exact ⟨n, by rw [hr]⟩
      · exact hmem r hr

theorem readmdoc_ok_of_valid (cfg : Config) (f : MdocFile)
    (h : ∀ seg ∈ f.segments, seg.validB = true) :
    ∃ df, readmdoc cfg f = Except.ok df ∧
      df.records.length = f.segments.length ∧
      df.imageFile = f.imageFile.map (fun s => listReplace mrcExt [] s) ∧
      ∀ r ∈ df.records, ∃ n : ℕ, r.numSubFrames = (n : ℚ) := by
  obtain ⟨rs, hrs, hlen, hmem⟩ := readSegments_ok_of_valid cfg f.segments 0 h
  refine ⟨{ records := rs, voltage := f.voltage, tiltAxisAngle := f.tiltAxisAngle,
            imageFile := f.imageFile.map (fun s => listReplace mrcExt [] s) },
    ?_, hlen, rfl, hmem⟩
  simp [readmdoc, hrs]

/-- `readSegments` fails at the first malformed segment: with every earlier
segment valid and segment `pre.length` missing its `NumSubFrames` capture
(its other captures fine), the whole loop errors there. -/
theorem readSegments_missing_numSubFrames (cfg : Config)
    (pre : List MdocSegment) (bad : MdocSegment) (rest : List MdocSegment)
    (start : Nat)
    (hpre : ∀ seg ∈ pre, seg.validB = true)
    (hta : bad.tiltAngle.isSome = true)
    (hsp : ∃ s, bad.subFramePath = some s ∧ (lastComponent s).isSome = true)
    (hnf : bad.numSubFrames = none) :
    readSegments cfg start (pre ++ bad :: rest) =
      Except.error (Err.missingField (start + pre.length) numSubFramesField) := by
  induction pre generalizing start with
  | nil =>
    obtain ⟨tab, spb, nfb⟩ := bad
    obtain ⟨q, hq⟩ := Option.isSome_iff_exists.mp hta
    obtain ⟨s, hs, hlc⟩ := hsp
    obtain ⟨sp1, hsp1⟩ := Option.isSome_iff_exists.mp hlc
    simp only [List.nil_append]
    subst hnf
    simp only at hq hs
    subst hq hs
    simp [readSegments, readSegment, hsp1]
  | cons seg pre' ih =>
    obtain ⟨q, sp, n, hok⟩ := readSegment_ok_of_valid cfg start seg
      (hpre seg (List.mem_cons_self seg pre'))
    have := ih (start + 1) (fun s hs => hpre s (List.mem_cons_of_mem seg hs))
    simp only [List.cons_append]
    rw [readSegments]
    simp only [hok, this]
    simp only [List.length_cons]
    congr 2
    omega

/-! ## Concrete sample inputs used by the witness theorems -/

def sampleCfg : Config :=
  { modifySubframePath := false
    fileType := "tif".data
    processingDirectory := "/processing".data
    mdocDirectory := "/mdocs".data
    fileSorting := true
    motionCorrection := true
    ctfEstimation := true
    aretomoAlignment := true }

def sampleFile : MdocFile :=
  { voltage := some 300
    tiltAxisAngle := some 85
    imageFile := some "Position_1_3.mrc".data
    segments :=
      [ { tiltAngle := some 20
          subFramePath := some "D:\\frames\\pos1_20.tif".data
          numSubFrames := some 8 }
      , { tiltAngle := some (-20)
          subFramePath := some "D:\\frames\\pos1_m20.tif".data
          numSubFrames := some 8 }
      , { tiltAngle := some 0
          subFramePath := some "D:\\frames\\pos1_0.tif".data
          numSubFrames := some 8 } ] }

/-- The DataFrame `readmdoc` produces from `sampleFile` under `sampleCfg`. -/
def sampleDf : MdocDf :=
  { records :=
      [ { tiltAngle := 20, subFramePath := "pos1_20.tif".data, numSubFrames := 8 }
      , { tiltAngle := -20, subFramePath := "pos1_m20.tif".data, numSubFrames := 8 }
      , { tiltAngle := 0, subFramePath := "pos1_0.tif".data, numSubFrames := 8 } ]
    voltage := some 300
    tiltAxisAngle := some 85
    imageFile := some "Position_1_3".data }

/-- Same tilt angles as `sampleDf` in the same order, different sub-frame
paths. -/
def sampleDf2 : MdocDf :=
  { records :=
      [ { tiltAngle := 20, subFramePath := "b_20.tif".data, numSubFrames := 6 }
      , { tiltAngle := -20, subFramePath := "b_m20.tif".data, numSubFrames := 6 }
      , { tiltAngle := 0, subFramePath := "b_0.tif".data, numSubFrames := 6 } ]
    voltage := none
    tiltAxisAngle := none
    imageFile := some "Position_2_1".data }

/-- `sampleFile` with the second segment missing its `NumSubFrames`
capture. -/
def badFile : MdocFile :=
  { voltage := some 300
    tiltAxisAngle := some 85
    imageFile := some "Position_1_3.mrc".data
    segments :=
      [ { tiltAngle := some 20
          subFramePath := some "D:\\frames\\pos1_20.tif".data
          numSubFrames := some 8 }
      , { tiltAngle := some (-20)
          subFramePath := some "D:\\frames\\pos1_m20.tif".data
          numSubFrames := none } ] }

/-- `sampleFile` cut down to a single (valid) tilt segment. -/
def singleSegFile : MdocFile :=
  { voltage := some 300
    tiltAxisAngle := some 85
    imageFile := some "Position_1_3.mrc".data
    segments :=
      [ { tiltAngle := some 20
          subFramePath := some "D:\\frames\\pos1_20.tif".data
          numSubFrames := some 8 } ] }

/-- The DataFrame `readmdoc` produces from `singleSegFile`. -/
def singleSegDf : MdocDf :=
  { records :=
      [ { tiltAngle := 20, subFramePath := "pos1_20.tif".data, numSubFrames := 8 } ]
    voltage := some 300
    tiltAxisAngle := some 85
    imageFile := some "Position_1_3".data }

/-! ## Claims -/

/-- C1: for every valid metadata text with `N` tilt segments — each
framed by a `ZValue` marker and containing a tilt angle, a sub-frame
source path, and a frame count — `readmdoc` returns exactly `N`
tilt records, each frame count being the cast of a non-negative integer
(hence `≥ 0`), each tilt angle the value of its segment's signed-decimal
capture. -/
theorem C1_parser_record_count (cfg : Config) (f : MdocFile)
    (h : ∀ seg ∈ f.segments, seg.validB = true) :
    ∃ df, readmdoc cfg f = Except.ok df ∧
      df.records.length = f.segments.length ∧
      ∀ r ∈ df.records,
        (∃ n : ℕ, r.numSubFrames = (n : ℚ)) ∧ 0 ≤ r.numSubFrames := by
  obtain ⟨df, hok, hlen, _, hmem⟩ := readmdoc_ok_of_valid cfg f h
  refine ⟨df, hok, hlen, fun r hr => ?_⟩
  obtain ⟨n, hn⟩ := hmem r hr
  exact ⟨⟨n, hn⟩, by rw [hn]; exact_mod_cast Nat.zero_le n⟩

theorem C1_witness :
    (∀ seg ∈ sampleFile.segments, seg.validB = true) ∧
    (∃ df, readmdoc sampleCfg sampleFile = Except.ok df ∧
      df.records.length = sampleFile.segments.length ∧
      ∀ r ∈ df.records,
        (∃ n : ℕ, r.numSubFrames = (n : ℚ)) ∧ 0 ≤ r.numSubFrames) :=
  ⟨by decide, C1_parser_record_count sampleCfg sampleFile (by decide)⟩

/-- C6: a metadata file whose first malformed tilt segment lacks the
`NumSubFrames` field fails the whole parse with a missing-field error at
exactly that segment (fail-fast, no skipping), and `file_sorter` then
fails with the same error before emitting any directory-creation or link
effect, so no partial work-unit directory is created. -/
theorem C6_fail_fast (cfg : Config) (pre : List MdocSegment)
    (bad : MdocSegment) (rest : List MdocSegment) (f : MdocFile)
    (hsegs : f.segments = pre ++ bad :: rest)
    (hpre : ∀ seg ∈ pre, seg.validB = true)
    (hta : bad.tiltAngle.isSome = true)
    (hsp : ∃ s, bad.subFramePath = some s ∧ (lastComponent s).isSome = true)
    (hnf : bad.numSubFrames = none) :
    readmdoc cfg f = Except.error (Err.missingField pre.length numSubFramesField) ∧
    file_sorter cfg f = Except.error (Err.missingField pre.length numSubFramesField) := by
  have hrs := readSegments_missing_numSubFrames cfg pre bad rest 0 hpre hta hsp hnf
  have h1 : readmdoc cfg f =
      Except.error (Err.missingField pre.length numSubFramesField) := by
    unfold readmdoc
    rw [hsegs, hrs]
    simp
  refine ⟨h1, ?_⟩
  unfold file_sorter get_position_name
  rw [h1]

theorem C6_witness :
    readmdoc sampleCfg badFile =
      Except.error (Err.missingField 1 numSubFramesField) ∧
    file_sorter sampleCfg badFile =
      Except.error (Err.missingField 1 numSubFramesField) := by
  have h := C6_fail_fast sampleCfg
    [{ tiltAngle := some 20, subFramePath := some "D:\\frames\\pos1_20.tif".data,
       numSubFrames := some 8 }]
    { tiltAngle := some (-20), subFramePath := some "D:\\frames\\pos1_m20.tif".data,
      numSubFrames := none }
    [] badFile rfl (by decide) (by decide)
    ⟨"D:\\frames\\pos1_m20.tif".data, rfl, by decide⟩ rfl
  simpa using h

/-- C9: when the mdoc parses successfully but yields fewer than two tilt
records, `get_position_name` — and every job stage, which repeats the
same row-1 lookup — fails with the indexing error from reading the
image-file identifier at row label 1; conversely at least two records
(plus a present ImageFile header) make the lookup succeed, so two tilt
segments are a precondition of the per-unit pipeline. -/
theorem C9_row1_lookup (cfg : Config) (f : MdocFile) (df : MdocDf)
    (hok : readmdoc cfg f = Except.ok df) (hlt : df.records.length < 2) :
    get_position_name cfg f = Except.error (Err.indexError 1) ∧
    ∀ stem, job_stage cfg f stem = Except.error (Err.indexError 1) := by
  have hloc : locImageFile df = Except.error (Err.indexError 1) := by
    unfold locImageFile
    rw [if_neg (by omega)]
  constructor
  · unfold get_position_name
    rw [hok]
    simp [hloc]
  · intro stem
    unfold job_stage
    rw [hok]
    simp [hloc]

theorem C9_witness :
    readmdoc sampleCfg singleSegFile = Except.ok singleSegDf ∧
    get_position_name sampleCfg singleSegFile =
      Except.error (Err.indexError 1) ∧
    job_stage sampleCfg singleSegFile "motioncorr_slurm_".data =
      Except.error (Err.indexError 1) :=
  ⟨by decide,
   (C9_row1_lookup sampleCfg singleSegFile singleSegDf (by decide) (by decide)).1,
   (C9_row1_lookup sampleCfg singleSegFile singleSegDf (by decide) (by decide)).2 _⟩

/-- The Identity Resolver as the specification sentence states it: the
canonical name is the identifier with only the exact trailing
`".<suffix>"` removed when present, the identifier unchanged otherwise.
Stated for comparison with the source's `resolve_position`. -/
def resolve_position_spec (positionName fileType processingDirectory : List Char) :
    List Char × List Char :=
  let stem := if ('.' :: fileType).isSuffixOf positionName then
      positionName.take (positionName.length - (fileType.length + 1))
    else positionName
  (stem, pathJoin processingDirectory stem)

/-- C2 counterexample: for identifier `a.tif.b` with suffix `tif`, the
trailing `".tif"` is absent, so the claim demands the identifier be
returned unchanged; the source resolver instead removes the non-trailing
`".tif"` occurrence, yielding canonical name `a.b`. -/
theorem C2_counterexample :
    resolve_position "a.tif.b".data "tif".data "/data".data ≠
      resolve_position_spec "a.tif.b".data "tif".data "/data".data := by
  decide

/-- C2 (amended): the resolver returns the identifier with EVERY
occurrence of `".<suffix>"` removed (not only a trailing one), and the
configured root joined with that canonical name; when `".<suffix>"`
occurs nowhere in the identifier, resolution is a silent no-op on the
identifier. -/
theorem C2_resolver_amended (ident sfx root : List Char) :
    resolve_position ident sfx root =
      (listReplace ('.' :: sfx) [] ident,
        pathJoin root (listReplace ('.' :: sfx) [] ident)) ∧
    (occursInB ('.' :: sfx) ident = false →
      resolve_position ident sfx root = (ident, pathJoin root ident)) := by
  refine ⟨rfl, fun h => ?_⟩
  have hno : ¬ occursIn ('.' :: sfx) ident := by
    rw [occursIn_iff_occursInB _ _ (by simp), h]
    simp
  unfold resolve_position
  rw [listReplace_of_not_occursIn _ _ _ hno]

theorem C2_witness :
    occursInB ('.' :: "mrc".data) "Position_1_3".data = false ∧
    resolve_position "Position_1_3".data "mrc".data "/data".data =
      ("Position_1_3".data, pathJoin "/data".data "Position_1_3".data) :=
  ⟨by decide,
   (C2_resolver_amended "Position_1_3".data "mrc".data "/data".data).2 (by decide)⟩

/-- C5 counterexample: metadata identifiers `Pos_1.tif` and `Pos_1` differ
only by the configured suffix `tif`, yet the resolver yields the SAME
canonical name and the SAME directory for both — not two distinct,
non-overlapping ones. -/
theorem C5_counterexample :
    resolve_position "Pos_1.tif".data "tif".data "/data".data =
      resolve_position "Pos_1".data "tif".data "/data".data := by
  decide

/-- C5 (amended): two identifiers that differ only by the configured
suffix collide: when `".<suffix>"` occurs in `stem ++ ".<suffix>"` only
as the trailing suffix, both identifiers resolve to canonical name `stem`
and to the same directory. -/
theorem C5_suffix_collision (stem sfx root : List Char)
    (h : ∀ i < (stem ++ '.' :: sfx).length,
        ('.' :: sfx).isPrefixOf ((stem ++ '.' :: sfx).drop i) = true →
          i = stem.length) :
    resolve_position (stem ++ '.' :: sfx) sfx root =
      resolve_position stem sfx root ∧
    (resolve_position stem sfx root).1 = stem := by
  have hpat : ('.' :: sfx) ≠ [] := by simp
  have hall : ∀ i, occursAt ('.' :: sfx) (stem ++ '.' :: sfx) i → i = stem.length := by
    intro i hi
    rcases Nat.lt_or_ge i (stem ++ '.' :: sfx).length with hlt | hge
    · exact h i hlt hi
    · exact absurd hi (occursAt_of_ge _ _ _ hpat hge)
  have hstem : ¬ occursIn ('.' :: sfx) stem := by
    rintro ⟨i, hi⟩
    have hilt : i < stem.length := by
      rcases Nat.lt_or_ge i stem.length with hlt | hge
      · exact hlt
      · exact absurd hi (occursAt_of_ge _ _ _ hpat hge)
    have hpre : ('.' :: sfx) <+: stem.drop i :=
      List.isPrefixOf_iff_prefix.mp hi
    have hext : occursAt ('.' :: sfx) (stem ++ '.' :: sfx) i := by
      rw [occursAt, List.drop_append_of_le_length (Nat.le_of_lt hilt)]
      exact List.isPrefixOf_iff_prefix.mpr
        (hpre.trans (List.prefix_append _ _))
    have := hall i hext
    omega
  have h1 : listReplace ('.' :: sfx) [] (stem ++ '.' :: sfx) = stem := by
    rw [listReplace_append_self _ _ _ hpat hall, List.append_nil]
  have h2 : listReplace ('.' :: sfx) [] stem = stem :=
    listReplace_of_not_occursIn _ _ _ hstem
  constructor
  · unfold resolve_position
    rw [h1, h2]
  · unfold resolve_position
    rw [h2]

theorem C5_witness :
    (∀ i < ("Position_1".data ++ '.' :: "tif".data).length,
        ('.' :: "tif".data).isPrefixOf
            (("Position_1".data ++ '.' :: "tif".data).drop i) = true →
          i = "Position_1".data.length) ∧
    resolve_position ("Position_1".data ++ '.' :: "tif".data) "tif".data
        "/data".data =
      resolve_position "Position_1".data "tif".data "/data".data :=
  ⟨by decide,
   (C5_suffix_collision "Position_1".data "tif".data "/data".data (by decide)).1⟩

/-- C10: `readmdoc` strips every scanned occurrence of the literal
`".mrc"` from the image-file identifier at parse time, under any
configuration (two configurations yield the same ImageFile column), and
the identifier `get_position_name` hands to the suffix-stripping
resolution is exactly this already-stripped value. -/
theorem C10_mrc_strip (cfg cfg' : Config) (f : MdocFile) (df : MdocDf)
    (hok : readmdoc cfg f = Except.ok df) :
    df.imageFile = f.imageFile.map (fun s => listReplace mrcExt [] s) ∧
    (∀ df', readmdoc cfg' f = Except.ok df' → df'.imageFile = df.imageFile) ∧
    (∀ raw, f.imageFile = some raw → 1 < df.records.length →
      get_position_name cfg f =
        Except.ok (resolve_position (listReplace mrcExt [] raw)
          cfg.fileType cfg.processingDirectory)) := by
  have h1 : df.imageFile = f.imageFile.map (fun s => listReplace mrcExt [] s) := by
    unfold readmdoc at hok
    cases hseg : readSegments cfg 0 f.segments with
    | error e => rw [hseg] at hok; exact absurd hok (by simp)
    | ok recs =>
      rw [hseg] at hok
      simp only [Except.ok.injEq] at hok
      subst hok
      rfl
  refine ⟨h1, ?_, ?_⟩
  · intro df' hok'
    unfold readmdoc at hok'
    cases hseg : readSegments cfg' 0 f.segments with
    | error e => rw [hseg] at hok'; exact absurd hok' (by simp)
    | ok recs =>
      rw [hseg] at hok'
      simp only [Except.ok.injEq] at hok'
      subst hok'
      rw [h1]
  · intro raw hraw hlen
    have hloc : locImageFile df = Except.ok (listReplace mrcExt [] raw) := by
      unfold locImageFile
      rw [if_pos hlen, h1, hraw]
      rfl
    unfold get_position_name
    rw [hok]
    simp [hloc]

theorem C10_witness :
    readmdoc sampleCfg sampleFile = Except.ok sampleDf ∧
    sampleDf.imageFile =
      sampleFile.imageFile.map (fun s => listReplace mrcExt [] s) ∧
    get_position_name sampleCfg sampleFile =
      Except.ok (resolve_position (listReplace mrcExt [] "Position_1_3.mrc".data)
        sampleCfg.fileType sampleCfg.processingDirectory) :=
  ⟨by decide,
   (C10_mrc_strip sampleCfg sampleCfg sampleFile sampleDf (by decide)).1,
   (C10_mrc_strip sampleCfg sampleCfg sampleFile sampleDf (by decide)).2.2
     "Position_1_3.mrc".data rfl (by decide)⟩

theorem rawtlt_sorted (df : MdocDf) : (rawtlt_content df).Sorted (· ≤ ·) := by
  have hp := @List.sorted_mergeSort TiltRecord
    (fun a b => decide (a.tiltAngle ≤ b.tiltAngle))
    (fun a b c hab hbc => by
      simp only [decide_eq_true_eq] at hab hbc ⊢
      exact le_trans hab hbc)
    (fun a b => by
      simp only [Bool.or_eq_true, decide_eq_true_eq]
      exact le_total _ _)
    df.records
  exact List.Pairwise.map _ (fun a b hab => of_decide_eq_true hab) hp

/-- C7: the sorted tilt-angle list written by `rawtlt_maker` is a
deterministic function of the record sequence's tilt-angle column (two
runs over sequences with equal angle columns produce identical payloads),
is sorted ascending, and is a permutation of the input angles. -/
theorem C7_rawtlt_deterministic (df df' : MdocDf)
    (h : df.records.map (fun r => r.tiltAngle) =
      df'.records.map (fun r => r.tiltAngle)) :
    rawtlt_content df = rawtlt_content df' ∧
    (rawtlt_content df).Sorted (· ≤ ·) ∧
    (rawtlt_content df).Perm (df.records.map (fun r => r.tiltAngle)) := by
  have hperm : ∀ d : MdocDf,
      (rawtlt_content d).Perm (d.records.map (fun r => r.tiltAngle)) :=
    fun d => List.Perm.map _ (List.mergeSort_perm d.records _)
  have hp2 := hperm df'
  rw [← h] at hp2
  exact ⟨List.eq_of_perm_of_sorted ((hperm df).trans hp2.symm)
      (rawtlt_sorted df) (rawtlt_sorted df'),
    rawtlt_sorted df, hperm df⟩

theorem C7_witness :
    (sampleDf.records.map (fun r => r.tiltAngle) =
      sampleDf2.records.map (fun r => r.tiltAngle)) ∧
    rawtlt_content sampleDf = rawtlt_content sampleDf2 ∧
    (rawtlt_content sampleDf).Sorted (· ≤ ·) :=
  ⟨by decide,
   (C7_rawtlt_deterministic sampleDf sampleDf2 (by decide)).1,
   (C7_rawtlt_deterministic sampleDf sampleDf2 (by decide)).2.1⟩

theorem queue_submit_run_spec (obs : Nat → Nat) (maxJobs : Nat)
    (script : List Char) :
    ∀ fuel n es, queue_submit_run obs maxJobs script fuel n = some es →
      ∃ k, obs (n + k) < maxJobs ∧
        (∀ m, n ≤ m → m < n + k → maxJobs ≤ obs m) ∧
        es = List.replicate k QueueEffect.sleep ++
          [QueueEffect.submit script] := by
  intro fuel
  induction fuel with
  | zero =>
    intro n es h
    exact absurd h (by simp [queue_submit_run])
  | succ fuel ih =>
    intro n es h
    rw [queue_submit_run] at h
    by_cases hc : maxJobs ≤ obs n
    · rw [if_pos hc] at h
      cases hrec : queue_submit_run obs maxJobs script fuel (n + 1) with
      | none => rw [hrec] at h; simp at h
      | some es' =>
        rw [hrec] at h
        simp only [Option.map_some', Option.some.injEq] at h
        obtain ⟨k, h1, h2, h3⟩ := ih (n + 1) es' hrec
        have hidx : n + (k + 1) = (n + 1) + k := by omega
        refine ⟨k + 1, by rw [hidx]; exact h1, ?_, ?_⟩
        · intro m hm1 hm2
          rcases Nat.eq_or_lt_of_le hm1 with hm | hm
          · rw [← hm]; exact hc
          · exact h2 m hm (by omega)
        · rw [← h, h3, List.replicate_succ]
          rfl
    · rw [if_neg hc] at h
      simp only [Option.some.injEq] at h
      refine ⟨0, ?_, by omega, by rw [← h]; rfl⟩
      simpa using Nat.lt_of_not_le hc

/-- C4: whenever the admission loop of `queue_submit` returns, there is a
poll `k` at which the just-observed load was strictly below the ceiling,
every earlier poll observed load at or above the ceiling (so `sbatch` is
never invoked while the most recently observed load ≥ ceiling), and the
effect trace contains exactly one submit — performed at that final poll. -/
theorem C4_admission (obs : Nat → Nat) (maxJobs : Nat) (script : List Char)
    (fuel : Nat) (es : List QueueEffect)
    (h : queue_submit_run obs maxJobs script fuel 0 = some es) :
    ∃ k, obs k < maxJobs ∧ (∀ m < k, maxJobs ≤ obs m) ∧
      es = List.replicate k QueueEffect.sleep ++
        [QueueEffect.submit script] ∧
      es.count (QueueEffect.submit script) = 1 := by
  obtain ⟨k, h1, h2, h3⟩ := queue_submit_run_spec obs maxJobs script fuel 0 es h
  refine ⟨k, by simpa using h1,
    fun m hm => h2 m (Nat.zero_le m) (by omega), h3, ?_⟩
  rw [h3, List.count_append, List.count_replicate]
  simp

theorem C4_witness :
    queue_submit_run (fun t => if t = 0 then 5 else 0) 5 "job.sh".data 2 0 =
      some [QueueEffect.sleep, QueueEffect.submit "job.sh".data] ∧
    (∃ k, (fun t => if t = 0 then 5 else 0 : Nat → Nat) k < 5 ∧
      (∀ m < k, 5 ≤ (fun t => if t = 0 then 5 else 0 : Nat → Nat) m) ∧
      [QueueEffect.sleep, QueueEffect.submit "job.sh".data] =
        List.replicate k QueueEffect.sleep ++
          [QueueEffect.submit "job.sh".data] ∧
      ([QueueEffect.sleep, QueueEffect.submit "job.sh".data] :
        List QueueEffect).count (QueueEffect.submit "job.sh".data) = 1) :=
  ⟨by decide,
   C4_admission (fun t => if t = 0 then 5 else 0) 5 "job.sh".data 2
     [QueueEffect.sleep, QueueEffect.submit "job.sh".data] (by decide)⟩

/-- C8: every error raised inside one work unit's stage sequence is caught
at that unit's top level and reported (`process_mdoc_file` is total), and
in the fan-out each unit's outcome occupies only its own slot of the
joined result — sibling units' outcomes are computed independently and
are unaffected. -/
theorem C8_error_isolation (cfg : Config) (f : MdocFile)
    (l1 l2 : List MdocFile) :
    (∀ e, stage_pipeline cfg f = Except.error e →
      process_mdoc_file cfg f = UnitOutcome.reported e) ∧
    fan_out cfg (l1 ++ f :: l2) =
      fan_out cfg l1 ++ process_mdoc_file cfg f :: fan_out cfg l2 := by
  constructor
  · intro e he
    unfold process_mdoc_file
    rw [he]
  · unfold fan_out
    rw [List.map_append, List.map_cons]

theorem C8_witness :
    stage_pipeline sampleCfg badFile =
      Except.error (Err.missingField 1 numSubFramesField) ∧
    process_mdoc_file sampleCfg badFile =
      UnitOutcome.reported (Err.missingField 1 numSubFramesField) ∧
    fan_out sampleCfg ([sampleFile] ++ badFile :: []) =
      fan_out sampleCfg [sampleFile] ++
        process_mdoc_file sampleCfg badFile :: fan_out sampleCfg [] :=
  ⟨by decide,
   (C8_error_isolation sampleCfg badFile [sampleFile] []).1 _ (by decide),
   (C8_error_isolation sampleCfg badFile [sampleFile] []).2⟩

/-- C3 (code bug): on a trace where every IMOD artifact is absent at every
poll, the enumerated-set gate of `relion_setup` returns at the very first
poll — its continue-condition is already `false` because `not` binds only
the first `os.path.exists` and the remaining conjuncts are `False` — while
a single-path gate `while not os.path.exists(target)` never returns on an
always-absent trace, as the claim demands. -/
theorem C3_imod_gate_bug :
    gate_wait_run (imod_gate_cond absentTrace absentTrace absentTrace
      absentTrace absentTrace absentTrace absentTrace) 1 0 = some 0 ∧
    ∀ fuel n, gate_wait_run (simple_gate_cond absentTrace) fuel n = none := by
  refine ⟨rfl, fun fuel => ?_⟩
  induction fuel with
  | zero => intro n; rfl
  | succ fuel ih =>
    intro n
    rw [gate_wait_run]
    simp [simple_gate_cond, absentTrace, ih]

end TomoPrep
